import Mathlib

/-!
Verification of the cutlass-sys build script (`build.rs`).

The build script is embedded shallowly: strings are `List Char` / `String`,
the filesystem is an existence oracle `Path → Bool`, network and process
effects are oracles (`http`, `clone`), and the script's observable behaviour
is a trace of events together with an outcome and a final filesystem state.
-/

namespace CutlassSys

/-! ## String utilities mirroring Rust's `str::split` and `[&str]::join` -/

/-- Embedding of Rust's `s.split(c)`: splits a character list at every
occurrence of `c`, keeping empty segments, always returning at least one
segment. -/
def splitOnChar (c : Char) : List Char → List (List Char)
  | [] => [[]]
  | x :: xs =>
    if x = c then [] :: splitOnChar c xs
    else
      let r := splitOnChar c xs
      (x :: r.headD []) :: r.tail

/-- Embedding of Rust's `s.split(c).next().unwrap()`: the segment of `l`
before the first occurrence of `c` (all of `l` when `c` does not occur). -/
def splitFirst (c : Char) (l : List Char) : List Char :=
  (splitOnChar c l).headD []

/-- Embedding of Rust's `parts.join(sep)` for a one-character separator. -/
def joinSep (c : Char) : List (List Char) → List Char
  | [] => []
  | [x] => x
  | x :: y :: rest => x ++ c :: joinSep c (y :: rest)

/-- Embedding of `get_cutlass_version` (build.rs lines 296-310) on character
lists: drop everything from the first `-`, then from the first `+`, split the
remainder on `.`, keep the first three segments and rejoin them with `.`. -/
def get_cutlass_versionL (pkg_version : List Char) : List Char :=
  let base_version := splitFirst '+' (splitFirst '-' pkg_version)
  joinSep '.' ((splitOnChar '.' base_version).take 3)

/-- `get_cutlass_version` on Lean strings. -/
def get_cutlass_version (pkg_version : String) : String :=
  String.mk (get_cutlass_versionL pkg_version.data)

/-! ## Rust unsigned-integer parsing (`str::parse::<usize>` / `::<u64>`) -/

/-- Numeric value of a list of ASCII digits, most significant first. -/
def digitsVal (l : List Char) : Nat :=
  l.foldl (fun acc c => acc * 10 + (c.toNat - 48)) 0

/-- Embedding of Rust's `s.parse::<uN>().ok()` for an `N`-bit unsigned
integer: an optional leading `+`, then one or more ASCII digits, and the
value must fit in `N` bits; anything else parses to `none`. -/
def parse_uint (width : Nat) (s : String) : Option Nat :=
  let cs :=
    match s.data with
    | '+' :: rest => rest
    | cs => cs
  if cs.isEmpty then none
  else if cs.all (fun c => c.isDigit) then
    let v := digitsVal cs
    if v < 2 ^ width then some v else none
  else none

/-! ## Filesystem model -/

/-- A filesystem path as a list of components; `PathBuf::from(s)` is `[s]`
and `p.join(s)` is `p ++ [s]`. -/
abbrev Path := List String

/-- Embedding of `Path::display` (Unix separators). -/
def displayPath (p : Path) : String :=
  String.intercalate "/" p

/-- A directory tree, used to model the content fetched by a download or
clone and then copied into the cache by `copy_dir_all`. -/
inductive DirTree where
  | file : DirTree
  | dir (entries : List (String × DirTree)) : DirTree

/-- Look up a named entry in a directory's entry list. -/
def lookupEntry (n : String) : List (String × DirTree) → Option DirTree
  | [] => none
  | (k, t) :: rest => if k = n then some t else lookupEntry n rest

/-- Whether a relative path exists inside a directory tree. -/
def hasPathAux : List String → DirTree → Bool
  | [], _ => true
  | n :: rest, t =>
    match t with
    | .file => false
    | .dir es =>
      match lookupEntry n es with
      | some t2 => hasPathAux rest t2
      | none => false

/-- Whether path `p` exists inside the tree `t`. -/
def DirTree.hasPath (t : DirTree) (p : List String) : Bool :=
  hasPathAux p t

/-- `stripPrefixPath dst p` is `some rest` when `p = dst ++ rest`. -/
def stripPrefixPath : Path → Path → Option Path
  | [], p => some p
  | _ :: _, [] => none
  | d :: ds, x :: xs => if d = x then stripPrefixPath ds xs else none

/-- The filesystem existence oracle after `copy_dir_all(src, dst)` copied
tree `t` onto `dst`: paths under `dst` that the tree contains now exist, and
previously existing paths remain (the copy merges, it does not delete). -/
def fsAfterCopy (fs : Path → Bool) (dst : Path) (t : DirTree) : Path → Bool :=
  fun p =>
    match stripPrefixPath dst p with
    | some rest => t.hasPath rest || fs p
    | none => fs p

/-! ## Observable behaviour of the build script -/

/-- A line printed by the build script for cargo: ordinary metadata
(`cargo:key=value`), a rerun-if directive, a `rustc-env` line, or a
warning. -/
inductive CargoLine where
  | meta (key value : String) : CargoLine
  | rerun (kind value : String) : CargoLine
  | rustcEnv (name value : String) : CargoLine
  | warning (msg : String) : CargoLine
deriving DecidableEq

/-- Observable events of one run of the build script, in order. -/
inductive Event where
  | cargo (line : CargoLine) : Event
  | stderr (msg : String) : Event
  | cacheLookup (p : Path) : Event
  | sleep (secs : Nat) : Event
  | httpAttempt (attempt timeoutSecs : Nat) : Event
  | cloneAttempt : Event
  | emit (root includeDir : Path) : Event
deriving DecidableEq

/-- Final outcome of a run: a published (root, include) pair, or a
`panic!` with its message. -/
inductive Outcome where
  | published (root includeDir : Path) : Outcome
  | panicked (msg : String) : Outcome
deriving DecidableEq

/-- The environment the build script reads (plus `CUTLASS_VERSION`, which
the library crate documents but the build script never reads). -/
structure Env where
  cutlass_dir : Option String
  cargo_home : Option String
  user_cache_dir : Option Path
  temp_base : Path
  out_dir : Path
  download_retries : Option String
  download_timeout : Option String
  cargo_pkg_version : String
  cutlass_version_var : Option String

/-- Embedding of `get_cache_dir` (build.rs lines 128-137): `CARGO_HOME`
first, then the platform user cache directory, finally the temp directory. -/
def get_cache_dir (env : Env) : Path :=
  match env.cargo_home with
  | some cargoHome => [cargoHome, "cutlass-sys-cache"]
  | none =>
    match env.user_cache_dir with
    | some cache => cache ++ ["cutlass-sys"]
    | none => env.temp_base ++ ["cutlass-sys-cache"]

/-- The `cutlass_version` string computed in `main` (build.rs line 17):
a `v` prefix on the mapped crate version. -/
def resolved_cutlass_version (env : Env) : String :=
  "v" ++ get_cutlass_version env.cargo_pkg_version

/-- `max_retries` as computed in `download_cutlass_with_retry`
(build.rs lines 143-146): parse `CUTLASS_DOWNLOAD_RETRIES` as `usize`,
defaulting to 3. -/
def max_retries_of (env : Env) : Nat :=
  (env.download_retries.bind (parse_uint 64)).getD 3

/-- `timeout_secs` as computed in `download_cutlass_with_retry`
(build.rs lines 148-151): parse `CUTLASS_DOWNLOAD_TIMEOUT` as `u64`,
defaulting to 120. -/
def timeout_secs_of (env : Env) : Nat :=
  (env.download_timeout.bind (parse_uint 64)).getD 120

/-- Embedding of `emit_cargo_keys` (build.rs lines 108-126). -/
def emit_cargo_keys (root includeDir : Path) : List CargoLine :=
  [ .meta "root" (displayPath root),
    .meta "include" (displayPath includeDir),
    .meta "include_dir" (displayPath includeDir),
    .meta "INCLUDE_DIR" (displayPath includeDir),
    .rustcEnv "CUTLASS_INCLUDE_DIR" (displayPath includeDir),
    .rustcEnv "CUTLASS_ROOT" (displayPath root),
    .warning ("CUTLASS include directory: " ++ displayPath includeDir) ]

/-- The retry loop of `download_cutlass_with_retry` (build.rs lines
157-178), over the list of attempt numbers: before every attempt after the
first, sleep `2^(attempt-1)` seconds; each attempt consults the `http`
oracle (attempt number, timeout); a failure is recorded as
the last error and the loop continues. -/
def retry_attempts (http : Nat → Nat → Except String DirTree) (timeoutSecs : Nat) :
    List Nat → Option String → List Event × Except (Option String) DirTree
  | [], lastError => ([], .error lastError)
  | attempt :: rest, _lastError =>
    let pre : List Event :=
      (if 1 < attempt then [.sleep (2 ^ (attempt - 1))] else []) ++
        [.httpAttempt attempt timeoutSecs]
    match http attempt timeoutSecs with
    | .ok tree => (pre, .ok tree)
    | .error e =>
      let r := retry_attempts http timeoutSecs rest
        (some ("HTTP download failed: " ++ e))
      (pre ++ r.1, r.2)

/-- Embedding of `download_cutlass_with_retry` (build.rs lines 139-195):
run the HTTP retry loop for attempts `1..=max_retries`; on exhaustion try
the git clone fallback; if that also fails, return the last HTTP error
(or a generic message when no attempt recorded one). -/
def download_cutlass_with_retry (env : Env)
    (http : Nat → Nat → Except String DirTree) (clone : Except String DirTree) :
    List Event × Except String DirTree :=
  let r := retry_attempts http (timeout_secs_of env)
    (List.range' 1 (max_retries_of env)) none
  match r.2 with
  | .ok tree => (r.1, .ok tree)
  | .error lastError =>
    match clone with
    | .ok tree => (r.1 ++ [.cloneAttempt], .ok tree)
    | .error _cloneErr =>
      (r.1 ++ [.cloneAttempt],
        .error (lastError.getD "All download attempts failed"))

/-- The stderr diagnostic block and panic of `main`'s download-failure arm
(build.rs lines 86-104). -/
def failureDiagnostics (cutlassVersion e : String) : List Event :=
  [ .stderr "\n========================================",
    .stderr ("ERROR: Failed to download CUTLASS " ++ cutlassVersion),
    .stderr "========================================",
    .stderr ("Reason: " ++ e),
    .stderr "\nTo fix this issue, you can:",
    .stderr "  1. Set CUTLASS_DIR environment variable to a local CUTLASS installation",
    .stderr "     Example: CUTLASS_DIR=/path/to/cutlass cargo build",
    .stderr "  2. Increase download timeout (default 120s):",
    .stderr "     CUTLASS_DOWNLOAD_TIMEOUT=300 cargo build",
    .stderr "  3. Clone CUTLASS manually and point to it:",
    .stderr ("     git clone --depth 1 --branch " ++ cutlassVersion ++
      " https://github.com/NVIDIA/cutlass.git"),
    .stderr "     CUTLASS_DIR=./cutlass cargo build",
    .stderr "========================================\n" ]

/-- Embedding of `main` (build.rs lines 7-106). Effects are oracles: `fs`
is path existence before the run, `http`/`clone` decide the fetch attempts,
and `copyOk` tells whether `copy_dir_all` into the cache succeeds. Returns
the event trace, the outcome, and the final filesystem oracle. -/
def mainRun (env : Env) (fs : Path → Bool)
    (http : Nat → Nat → Except String DirTree) (clone : Except String DirTree)
    (copyOk : Bool) : List Event × Outcome × (Path → Bool) :=
  let pkg_version := env.cargo_pkg_version
  let cutlass_version := resolved_cutlass_version env
  let header : List Event :=
    [ .cargo (.rerun "changed" "build.rs"),
      .cargo (.rerun "env-changed" "CUTLASS_DIR"),
      .cargo (.rerun "env-changed" "CUTLASS_DOWNLOAD_RETRIES"),
      .cargo (.rerun "env-changed" "CUTLASS_DOWNLOAD_TIMEOUT"),
      .cargo (.warning ("cutlass-sys " ++ pkg_version ++ " maps to CUTLASS " ++
        cutlass_version)) ]
  match env.cutlass_dir with
  | some custom_dir =>
    let cutlass_root : Path := [custom_dir]
    let include_dir : Path := cutlass_root ++ ["include"]
    if fs include_dir then
      (header ++
        [.cargo (.warning ("Using CUTLASS from CUTLASS_DIR: " ++
          displayPath cutlass_root))] ++
        (emit_cargo_keys cutlass_root include_dir).map Event.cargo ++
        [.emit cutlass_root include_dir],
       .published cutlass_root include_dir, fs)
    else
      (header,
       .panicked ("CUTLASS_DIR is set to '" ++ custom_dir ++ "' but '" ++
         displayPath include_dir ++
         "' does not exist. Please ensure CUTLASS_DIR points to a valid CUTLASS installation."),
       fs)
  | none =>
    let cache_dir := get_cache_dir env ++ ["cutlass", cutlass_version]
    let cached_include := cache_dir ++ ["include"]
    if fs cached_include then
      (header ++ [.cacheLookup cached_include] ++
        [.cargo (.warning ("Using cached CUTLASS " ++ cutlass_version ++
          " at " ++ displayPath cache_dir))] ++
        (emit_cargo_keys cache_dir cached_include).map Event.cargo ++
        [.emit cache_dir cached_include],
       .published cache_dir cached_include, fs)
    else
      let dlHeader := header ++ [.cacheLookup cached_include] ++
        [.cargo (.warning ("Downloading CUTLASS " ++ cutlass_version ++
          " from GitHub..."))]
      let r := download_cutlass_with_retry env http clone
      match r.2 with
      | .ok tree =>
        if copyOk then
          let fs2 := fsAfterCopy fs cache_dir tree
          let include_dir := cache_dir ++ ["include"]
          (dlHeader ++ r.1 ++
            [.cargo (.warning ("CUTLASS " ++ cutlass_version ++
              " downloaded and cached successfully"))] ++
            (emit_cargo_keys cache_dir include_dir).map Event.cargo ++
            [.emit cache_dir include_dir],
           .published cache_dir include_dir, fs2)
        else
          (dlHeader ++ r.1, .panicked "Failed to copy to cache", fs)
      | .error e =>
        (dlHeader ++ r.1 ++ failureDiagnostics cutlass_version e,
         .panicked "Failed to obtain CUTLASS. See error message above for solutions.",
         fs)

/-- True for the events the fetch pipeline produces after the override
check: cache lookup, backoff sleep, HTTP attempt, clone attempt. -/
def Event.isFetchStep : Event → Bool
  | .cacheLookup _ => true
  | .sleep _ => true
  | .httpAttempt _ _ => true
  | .cloneAttempt => true
  | _ => false

/-- True exactly for the events that are a network request or an external
process spawn. -/
def Event.isNetworkOrSpawn : Event → Bool
  | .httpAttempt _ _ => true
  | .cloneAttempt => true
  | _ => false

/-- The cargo line carried by an event, when any. -/
def Event.cargoLine : Event → Option CargoLine
  | .cargo l => some l
  | _ => none

/-- Whether a cargo line is consumable build metadata (a plain
`cargo:key=value` or a `rustc-env` line) mentioning string `s` in its key or
value; warnings and rerun directives are diagnostics, not published
outputs. -/
def CargoLine.publishedOutputMentions (l : CargoLine) (s : String) : Bool :=
  match l with
  | .meta k v => decide (s.data <:+: k.data) || decide (s.data <:+: v.data)
  | .rustcEnv n v => decide (s.data <:+: n.data) || decide (s.data <:+: v.data)
  | .rerun _ _ => false
  | .warning _ => false

/-! ## Lemmas about the split and join primitives -/

theorem splitOnChar_ne_nil (c : Char) (l : List Char) : splitOnChar c l ≠ [] := by
  cases l with
  | nil => simp [splitOnChar]
  | cons x xs =>
    simp only [splitOnChar]
    split <;> simp

theorem splitFirst_nil (c : Char) : splitFirst c [] = [] := rfl

theorem splitFirst_cons (c x : Char) (xs : List Char) :
    splitFirst c (x :: xs) = if x = c then [] else x :: splitFirst c xs := by
  simp only [splitFirst, splitOnChar]
  split <;> simp

theorem splitFirst_append (c : Char) (l₁ l₂ : List Char) (h : c ∉ l₁) :
    splitFirst c (l₁ ++ l₂) = l₁ ++ splitFirst c l₂ := by
  induction l₁ with
  | nil => simp
  | cons a l₁ ih =>
    simp only [List.mem_cons, not_or] at h
    simp [splitFirst_cons, Ne.symm, h.1, ih h.2]

theorem splitFirst_of_not_mem (c : Char) (l : List Char) (h : c ∉ l) :
    splitFirst c l = l := by
  have := splitFirst_append c l [] h
  simpa [splitFirst_nil] using this

theorem splitFirst_before_sep (c : Char) (l₁ l₂ : List Char) (h : c ∉ l₁) :
    splitFirst c (l₁ ++ c :: l₂) = l₁ := by
  rw [splitFirst_append c l₁ (c :: l₂) h, splitFirst_cons]
  simp

theorem splitOnChar_sep (c : Char) (l₁ l₂ : List Char) (h : c ∉ l₁) :
    splitOnChar c (l₁ ++ c :: l₂) = l₁ :: splitOnChar c l₂ := by
  induction l₁ with
  | nil => simp [splitOnChar]
  | cons a l₁ ih =>
    simp only [List.mem_cons, not_or] at h
    simp [splitOnChar, Ne.symm, h.1, ih h.2]

theorem splitOnChar_of_not_mem (c : Char) (l : List Char) (h : c ∉ l) :
    splitOnChar c l = [l] := by
  induction l with
  | nil => rfl
  | cons a l ih =>
    simp only [List.mem_cons, not_or] at h
    simp [splitOnChar, Ne.symm, h.1, ih h.2]

theorem joinSep_splitOnChar (c : Char) (l : List Char) :
    joinSep c (splitOnChar c l) = l := by
  induction l with
  | nil => rfl
  | cons x xs ih =>
    rcases hS : splitOnChar c xs with _ | ⟨s, t⟩
    · exact absurd hS (splitOnChar_ne_nil c xs)
    · rw [hS] at ih
      by_cases hx : x = c
      · subst hx
        simp [splitOnChar, hS, joinSep, ih]
      · simp only [splitOnChar, hx, if_false, hS]
        cases t with
        | nil =>
          simp only [joinSep] at ih ⊢
          simp [ih]
        | cons u w =>
          simp only [joinSep] at ih ⊢
          simp [ih]

theorem splitFirst_sublist (c : Char) (l : List Char) :
    List.Sublist (splitFirst c l) l := by
  induction l with
  | nil => simp [splitFirst_nil]
  | cons x xs ih =>
    rw [splitFirst_cons]
    by_cases hx : x = c
    · simp [hx]
    · simp only [hx, if_false]
      exact List.Sublist.cons₂ x ih

theorem splitOnChar_length (c : Char) (l : List Char) :
    (splitOnChar c l).length = l.count c + 1 := by
  induction l with
  | nil => simp [splitOnChar]
  | cons x xs ih =>
    rcases hS : splitOnChar c xs with _ | ⟨s, t⟩
    · exact absurd hS (splitOnChar_ne_nil c xs)
    · rw [hS] at ih
      by_cases hx : x = c
      · subst hx
        simp [splitOnChar, hS, List.count_cons, ← ih]
      · simp [splitOnChar, hx, hS, List.count_cons, Ne.symm hx, ← ih]

theorem digit_not_sep (ch : Char) (h : ch.isDigit = true) :
    ch ≠ '.' ∧ ch ≠ '-' ∧ ch ≠ '+' := by
  refine ⟨?_, ?_, ?_⟩ <;> rintro rfl <;> exact absurd h (by decide)

theorem not_mem_version_core (M m p : List Char) (c : Char)
    (hM : ∀ ch ∈ M, ch.isDigit = true) (hm : ∀ ch ∈ m, ch.isDigit = true)
    (hp : ∀ ch ∈ p, ch.isDigit = true)
    (hdot : c ≠ '.') (hdig : c.isDigit = false) :
    c ∉ M ++ '.' :: (m ++ '.' :: p) := by
  intro hmem
  simp only [List.mem_append, List.mem_cons] at hmem
  rcases hmem with h | h | h | h | h
  · exact absurd (hM c h) (by simp [hdig])
  · exact hdot h
  · exact absurd (hm c h) (by simp [hdig])
  · exact hdot h
  · exact absurd (hp c h) (by simp [hdig])

/-- C1: for every well-formed semantic version string
`MAJOR.MINOR.PATCH[-pre][+build]` (numeric components, optional pre-release
or build-metadata suffix starting with the first `-` or `+`),
`get_cutlass_version` returns exactly `MAJOR.MINOR.PATCH`; in particular
`4.2.0-rc.1` maps to `4.2.0`, `3.9.2-beta.2+exp` maps to `3.9.2` and
`4.2.0` maps to `4.2.0`. -/
theorem get_cutlass_version_wellformed :
    (∀ M m p suf : List Char,
      (∀ ch ∈ M, ch.isDigit = true) → (∀ ch ∈ m, ch.isDigit = true) →
      (∀ ch ∈ p, ch.isDigit = true) →
      (suf = [] ∨ (∃ r, suf = '-' :: r) ∨ (∃ r, suf = '+' :: r)) →
      get_cutlass_versionL ((M ++ '.' :: m ++ '.' :: p) ++ suf) =
        M ++ '.' :: m ++ '.' :: p) ∧
    get_cutlass_version "4.2.0-rc.1" = "4.2.0" ∧
    get_cutlass_version "3.9.2-beta.2+exp" = "3.9.2" ∧
    get_cutlass_version "4.2.0" = "4.2.0" := by
  refine ⟨?_, by decide, by decide, by decide⟩
  intro M m p suf hM hm hp hsuf
  have hnd : '-' ∉ M ++ '.' :: (m ++ '.' :: p) :=
    not_mem_version_core M m p '-' hM hm hp (by decide) (by decide)
  have hnp : '+' ∉ M ++ '.' :: (m ++ '.' :: p) :=
    not_mem_version_core M m p '+' hM hm hp (by decide) (by decide)
  have hMdot : '.' ∉ M := fun h => absurd (hM '.' h) (by decide)
  have hmdot : '.' ∉ m := fun h => absurd (hm '.' h) (by decide)
  have hpdot : '.' ∉ p := fun h => absurd (hp '.' h) (by decide)
  have hcore : M ++ '.' :: m ++ '.' :: p = M ++ '.' :: (m ++ '.' :: p) := by
    simp
  rw [hcore]
  have hbase :
      splitFirst '+' (splitFirst '-' ((M ++ '.' :: (m ++ '.' :: p)) ++ suf)) =
        M ++ '.' :: (m ++ '.' :: p) := by
    rcases hsuf with rfl | ⟨r, rfl⟩ | ⟨r, rfl⟩
    · rw [List.append_nil, splitFirst_of_not_mem '-' _ hnd,
        splitFirst_of_not_mem '+' _ hnp]
    · rw [splitFirst_before_sep '-' _ r hnd, splitFirst_of_not_mem '+' _ hnp]
    · rw [splitFirst_append '-' _ ('+' :: r) hnd, splitFirst_cons]
      simp only [if_neg (by decide : ¬('+' = '-'))]
      rw [splitFirst_before_sep '+' _ _ hnp]
  have hsplit :
      splitOnChar '.' (M ++ '.' :: (m ++ '.' :: p)) = [M, m, p] := by
    rw [splitOnChar_sep '.' M _ hMdot, splitOnChar_sep '.' m p hmdot,
      splitOnChar_of_not_mem '.' p hpdot]
  show joinSep '.' ((splitOnChar '.'
      (splitFirst '+' (splitFirst '-' ((M ++ '.' :: (m ++ '.' :: p)) ++ suf)))).take 3) =
    M ++ '.' :: (m ++ '.' :: p)
  rw [hbase, hsplit]
  simp [joinSep]

/-- Closed witness for `get_cutlass_version_wellformed`, instantiating it at
`4.2.0-rc.1` written out as components. -/
theorem get_cutlass_version_wellformed_witness :
    get_cutlass_versionL ((['4'] ++ '.' :: ['2'] ++ '.' :: ['0']) ++
        ('-' :: ['r', 'c', '.', '1'])) = ['4'] ++ '.' :: ['2'] ++ '.' :: ['0'] :=
  get_cutlass_version_wellformed.1 ['4'] ['2'] ['0'] ('-' :: ['r', 'c', '.', '1'])
    (by decide) (by decide) (by decide) (Or.inr (Or.inl ⟨['r', 'c', '.', '1'], rfl⟩))

/-- C8: the version mapper truncates rather than validates: the
four-component input `4.2.0.1` maps to `4.2.0`, and any input whose
(stripped) text has fewer than three dot-separated segments is mapped to the
stripped text itself, joined back unchanged, rather than to an error. -/
theorem get_cutlass_version_truncates :
    get_cutlass_version "4.2.0.1" = "4.2.0" ∧
    ∀ l : List Char, (splitOnChar '.' l).length < 3 →
      get_cutlass_versionL l = splitFirst '+' (splitFirst '-' l) := by
  refine ⟨by decide, ?_⟩
  intro l h
  have hsub : List.Sublist (splitFirst '+' (splitFirst '-' l)) l :=
    (splitFirst_sublist '+' (splitFirst '-' l)).trans (splitFirst_sublist '-' l)
  have hcount : (splitFirst '+' (splitFirst '-' l)).count '.' ≤ l.count '.' :=
    hsub.count_le '.'
  have hlen : (splitOnChar '.' (splitFirst '+' (splitFirst '-' l))).length ≤ 3 := by
    rw [splitOnChar_length] at h ⊢
    omega
  show joinSep '.'
      ((splitOnChar '.' (splitFirst '+' (splitFirst '-' l))).take 3) =
    splitFirst '+' (splitFirst '-' l)
  rw [List.take_of_length_le hlen, joinSep_splitOnChar]

/-- Closed witness for `get_cutlass_version_truncates`, instantiating its
second conjunct at the two-segment input `1.2`. -/
theorem get_cutlass_version_truncates_witness :
    get_cutlass_versionL ['1', '.', '2'] =
      splitFirst '+' (splitFirst '-' ['1', '.', '2']) :=
  get_cutlass_version_truncates.2 ['1', '.', '2'] (by decide)

/-! ## Concrete fixtures used by witnesses and counterexamples -/

/-- A typical environment: no override, a `CARGO_HOME`, crate version
`4.2.0`, retry variables unset. -/
def baseEnv : Env :=
  { cutlass_dir := none,
    cargo_home := some "/home/user/.cargo",
    user_cache_dir := none,
    temp_base := ["/tmp"],
    out_dir := ["/target/out"],
    download_retries := none,
    download_timeout := none,
    cargo_pkg_version := "4.2.0",
    cutlass_version_var := none }

/-- `baseEnv` with the `CUTLASS_DIR` override set. -/
def envOverride : Env :=
  { baseEnv with cutlass_dir := some "/opt/cutlass" }

/-- An HTTP oracle on which every attempt fails with a network error. -/
def httpFail : Nat → Nat → Except String DirTree :=
  fun _ _ => Except.error "connection refused"

/-- An HTTP oracle on which the first attempt succeeds, but the fetched
tree contains no `include/` entry. -/
def httpEmptyTree : Nat → Nat → Except String DirTree :=
  fun _ _ => Except.ok (DirTree.dir [])

/-- A clone oracle that fails (for example, git is not installed). -/
def cloneFail : Except String DirTree :=
  Except.error "git: command not found"

/-- A fetched tree that does contain an `include/` subtree. -/
def sampleTree : DirTree :=
  DirTree.dir [("include", DirTree.dir [("cutlass", DirTree.file)])]

/-- A filesystem on which no path exists. -/
def fsNone : Path → Bool := fun _ => false

/-- A filesystem on which every path exists. -/
def fsAll : Path → Bool := fun _ => true

/-! ## C2: the retry loop -/

/-- C2: with the attempt count at its default of 3 and every HTTP attempt
failing, the script makes exactly three HTTP attempts and then one clone
attempt, sleeping 2 seconds before attempt 2 and 4 seconds before attempt 3
(`2^(attempt-1)`); exhausting the HTTP attempts raises no error by itself:
when the clone fallback succeeds the download succeeds. -/
theorem retry_three_attempts_then_clone
    (env : Env) (http : Nat → Nat → Except String DirTree)
    (clone : Except String DirTree)
    (hr : env.download_retries = none) (ht : env.download_timeout = none)
    (hfail : ∀ n, ∃ e, http n 120 = Except.error e) :
    (download_cutlass_with_retry env http clone).1 =
      [Event.httpAttempt 1 120, Event.sleep 2, Event.httpAttempt 2 120,
       Event.sleep 4, Event.httpAttempt 3 120, Event.cloneAttempt] ∧
    ∀ tree, clone = Except.ok tree →
      (download_cutlass_with_retry env http clone).2 = Except.ok tree := by
  obtain ⟨e1, h1⟩ := hfail 1
  obtain ⟨e2, h2⟩ := hfail 2
  obtain ⟨e3, h3⟩ := hfail 3
  have hmax : max_retries_of env = 3 := by simp [max_retries_of, hr]
  have htime : timeout_secs_of env = 120 := by simp [timeout_secs_of, ht]
  have hrange : List.range' 1 3 = [1, 2, 3] := rfl
  constructor
  · cases clone with
    | ok tree =>
      simp [download_cutlass_with_retry, hmax, htime, hrange, retry_attempts,
        h1, h2, h3]
    | error err =>
      simp [download_cutlass_with_retry, hmax, htime, hrange, retry_attempts,
        h1, h2, h3]
  · intro tree hc
    subst hc
    simp [download_cutlass_with_retry, hmax, htime, hrange, retry_attempts,
      h1, h2, h3]

/-- Closed witness for `retry_three_attempts_then_clone`: the always-failing
HTTP oracle with default settings produces exactly the expected trace. -/
theorem retry_three_attempts_then_clone_witness :
    (download_cutlass_with_retry baseEnv httpFail (Except.ok sampleTree)).1 =
      [Event.httpAttempt 1 120, Event.sleep 2, Event.httpAttempt 2 120,
       Event.sleep 4, Event.httpAttempt 3 120, Event.cloneAttempt] :=
  (retry_three_attempts_then_clone baseEnv httpFail (Except.ok sampleTree)
    rfl rfl (fun _ => ⟨"connection refused", rfl⟩)).1

/-! ## C6: the final diagnostic after clone failure -/

/-- C6 counterexample: with every HTTP attempt failing with
`connection refused` and the clone fallback failing with
`git: command not found`, the error returned by
`download_cutlass_with_retry` (which `main` surfaces as the `Reason:` line)
is the last HTTP error alone; the clone failure's error is not part of it,
contradicting the claim that the two are combined. -/
theorem clone_error_absent_from_final_error :
    (download_cutlass_with_retry baseEnv httpFail cloneFail).2 =
      Except.error "HTTP download failed: connection refused" ∧
    ¬ (("git: command not found").data <:+:
        ("HTTP download failed: connection refused").data) ∧
    Event.stderr ("Reason: " ++ "HTTP download failed: connection refused") ∈
      (mainRun baseEnv fsNone httpFail cloneFail true).1 := by
  refine ⟨rfl, by decide, ?_⟩
  decide

/-- C6 amended: when all HTTP attempts fail and the clone fallback also
fails, the error returned by `download_cutlass_with_retry` — and hence the
`Reason:` diagnostic shown by `main` — is the last HTTP error alone; the
clone failure's own error is only logged as a warning and is not combined
into it. -/
theorem download_error_is_last_http_error
    (env : Env) (http : Nat → Nat → Except String DirTree)
    (clone : Except String DirTree) (errf : Nat → String) (ce : String)
    (hr : env.download_retries = none)
    (hhttp : ∀ n t, http n t = Except.error (errf n))
    (hclone : clone = Except.error ce) :
    (download_cutlass_with_retry env http clone).2 =
      Except.error ("HTTP download failed: " ++ errf 3) := by
  have hmax : max_retries_of env = 3 := by simp [max_retries_of, hr]
  have hrange : List.range' 1 3 = [1, 2, 3] := rfl
  subst hclone
  simp [download_cutlass_with_retry, hmax, hrange, retry_attempts, hhttp]

/-- Closed witness for `download_error_is_last_http_error`. -/
theorem download_error_is_last_http_error_witness :
    (download_cutlass_with_retry baseEnv httpFail cloneFail).2 =
      Except.error ("HTTP download failed: " ++ "connection refused") :=
  download_error_is_last_http_error baseEnv httpFail cloneFail
    (fun _ => "connection refused") "git: command not found"
    rfl (fun _ _ => rfl) rfl

/-! ## C9: malformed retry and timeout variables fall back to defaults -/

/-- C9: whenever `CUTLASS_DOWNLOAD_RETRIES` and `CUTLASS_DOWNLOAD_TIMEOUT`
are unset or fail to parse as unsigned integers, the script silently uses
the defaults — 3 attempts and a 120-second timeout — and behaves exactly as
if both variables were unset; no error is raised for a malformed value. -/
theorem download_defaults_on_malformed
    (env : Env) (http : Nat → Nat → Except String DirTree)
    (clone : Except String DirTree)
    (hr : env.download_retries.bind (parse_uint 64) = none)
    (ht : env.download_timeout.bind (parse_uint 64) = none) :
    max_retries_of env = 3 ∧ timeout_secs_of env = 120 ∧
    download_cutlass_with_retry env http clone =
      download_cutlass_with_retry
        { env with download_retries := none, download_timeout := none }
        http clone := by
  have h1 : max_retries_of env = 3 := by simp [max_retries_of, hr]
  have h2 : timeout_secs_of env = 120 := by simp [timeout_secs_of, ht]
  refine ⟨h1, h2, ?_⟩
  simp [download_cutlass_with_retry, max_retries_of, timeout_secs_of, hr, ht]

/-- Closed witness for `download_defaults_on_malformed`: a non-numeric
retry count and a negative timeout both fall back to the defaults. -/
theorem download_defaults_on_malformed_witness :
    max_retries_of
        { baseEnv with download_retries := some "abc",
                       download_timeout := some "-5" } = 3 ∧
    timeout_secs_of
        { baseEnv with download_retries := some "abc",
                       download_timeout := some "-5" } = 120 ∧
    download_cutlass_with_retry
        { baseEnv with download_retries := some "abc",
                       download_timeout := some "-5" } httpFail cloneFail =
      download_cutlass_with_retry
        { { baseEnv with download_retries := some "abc",
                         download_timeout := some "-5" }
            with download_retries := none, download_timeout := none }
        httpFail cloneFail :=
  download_defaults_on_malformed
    { baseEnv with download_retries := some "abc", download_timeout := some "-5" }
    httpFail cloneFail (by decide) (by decide)

/-! ## C10: `CUTLASS_VERSION` is never read -/

/-- C10: the resolved CUTLASS version is a function of `CARGO_PKG_VERSION`
alone, and the `CUTLASS_VERSION` environment variable (documented by the
library crate as an override) is never read by the build script: two runs
differing only in it behave identically. -/
theorem cutlass_version_var_never_read :
    (∀ (env : Env) (v : Option String),
      resolved_cutlass_version { env with cutlass_version_var := v } =
        resolved_cutlass_version env) ∧
    (∀ (env : Env) (v : Option String) (fs : Path → Bool)
      (http : Nat → Nat → Except String DirTree)
      (clone : Except String DirTree) (copyOk : Bool),
      mainRun { env with cutlass_version_var := v } fs http clone copyOk =
        mainRun env fs http clone copyOk) ∧
    (∀ env₁ env₂ : Env, env₁.cargo_pkg_version = env₂.cargo_pkg_version →
      resolved_cutlass_version env₁ = resolved_cutlass_version env₂) := by
  refine ⟨fun env v => rfl, ?_, ?_⟩
  · intro env v fs http clone copyOk
    cases env
    rfl
  · intro env₁ env₂ h
    simp [resolved_cutlass_version, h]

/-- Closed witness for `cutlass_version_var_never_read`: setting
`CUTLASS_VERSION` to `v9.9.9` leaves the resolved version unchanged. -/
theorem cutlass_version_var_never_read_witness :
    resolved_cutlass_version { baseEnv with cutlass_version_var := some "v9.9.9" } =
      resolved_cutlass_version baseEnv :=
  cutlass_version_var_never_read.2.2
    { baseEnv with cutlass_version_var := some "v9.9.9" } baseEnv rfl

/-! ## C3: the `CUTLASS_DIR` override -/

/-- C3: when `CUTLASS_DIR` is set to a directory without an `include/`
subdirectory, the script panics with the descriptive configuration message
and its trace contains no cache lookup, no sleep, no HTTP attempt and no
clone attempt — the fetch pipeline never starts; when `<dir>/include`
exists, the paths are published immediately and the fetch pipeline is
likewise never executed. -/
theorem override_checked_first
    (env : Env) (fs : Path → Bool) (http : Nat → Nat → Except String DirTree)
    (clone : Except String DirTree) (copyOk : Bool) (d : String)
    (hdir : env.cutlass_dir = some d) :
    (fs [d, "include"] = false →
      (mainRun env fs http clone copyOk).2.1 =
        Outcome.panicked ("CUTLASS_DIR is set to '" ++ d ++ "' but '" ++
          displayPath [d, "include"] ++
          "' does not exist. Please ensure CUTLASS_DIR points to a valid CUTLASS installation.") ∧
      (mainRun env fs http clone copyOk).1.all
        (fun ev => !ev.isFetchStep) = true) ∧
    (fs [d, "include"] = true →
      (mainRun env fs http clone copyOk).2.1 =
        Outcome.published [d] [d, "include"] ∧
      (mainRun env fs http clone copyOk).1.all
        (fun ev => !ev.isFetchStep) = true) := by
  constructor
  · intro hfs
    constructor <;>
      simp [mainRun, hdir, hfs, emit_cargo_keys, Event.isFetchStep]
  · intro hfs
    constructor <;>
      simp [mainRun, hdir, hfs, emit_cargo_keys, Event.isFetchStep]

/-- Closed witness for `override_checked_first`: with `CUTLASS_DIR` set to
`/opt/cutlass` on an empty filesystem, the script panics without any fetch
step. -/
theorem override_checked_first_witness :
    (mainRun envOverride fsNone httpFail cloneFail true).2.1 =
      Outcome.panicked ("CUTLASS_DIR is set to '" ++ "/opt/cutlass" ++ "' but '" ++
        displayPath ["/opt/cutlass", "include"] ++
        "' does not exist. Please ensure CUTLASS_DIR points to a valid CUTLASS installation.") ∧
    (mainRun envOverride fsNone httpFail cloneFail true).1.all
      (fun ev => !ev.isFetchStep) = true :=
  (override_checked_first envOverride fsNone httpFail cloneFail true
    "/opt/cutlass" rfl).1 rfl

/-! ## C4: the cache hit path -/

/-- C4: when `CUTLASS_DIR` is unset and the cache already contains
`<cacheRoot>/cutlass/<version>/include`, the run publishes exactly that
cached path, performs no network request and no process spawn, leaves the
filesystem untouched, and accepts the cache entry for any filesystem in
which the path merely exists (no integrity verification). -/
theorem cache_hit_no_network
    (env : Env) (fs : Path → Bool) (http : Nat → Nat → Except String DirTree)
    (clone : Except String DirTree) (copyOk : Bool)
    (hdir : env.cutlass_dir = none)
    (hcache : fs ((get_cache_dir env ++ ["cutlass", resolved_cutlass_version env]) ++
      ["include"]) = true) :
    (mainRun env fs http clone copyOk).2.1 =
      Outcome.published
        (get_cache_dir env ++ ["cutlass", resolved_cutlass_version env])
        ((get_cache_dir env ++ ["cutlass", resolved_cutlass_version env]) ++
          ["include"]) ∧
    (mainRun env fs http clone copyOk).1.all
      (fun ev => !ev.isNetworkOrSpawn) = true ∧
    (mainRun env fs http clone copyOk).2.2 = fs := by
  have hcache' : fs (get_cache_dir env ++
      ["cutlass", resolved_cutlass_version env, "include"]) = true := by
    simpa using hcache
  refine ⟨?_, ?_, ?_⟩ <;>
    simp [mainRun, hdir, hcache', emit_cargo_keys, Event.isNetworkOrSpawn]

/-- Closed witness for `cache_hit_no_network`: on a filesystem where the
cached include directory exists, the cached paths are published with no
network or spawn event. -/
theorem cache_hit_no_network_witness :
    (mainRun baseEnv fsAll httpFail cloneFail true).2.1 =
      Outcome.published
        (get_cache_dir baseEnv ++ ["cutlass", resolved_cutlass_version baseEnv])
        ((get_cache_dir baseEnv ++ ["cutlass", resolved_cutlass_version baseEnv]) ++
          ["include"]) ∧
    (mainRun baseEnv fsAll httpFail cloneFail true).1.all
      (fun ev => !ev.isNetworkOrSpawn) = true ∧
    (mainRun baseEnv fsAll httpFail cloneFail true).2.2 = fsAll :=
  cache_hit_no_network baseEnv fsAll httpFail cloneFail true rfl rfl

/-! ## C5: what a published result guarantees -/

theorem stripPrefixPath_append (dst rest : Path) :
    stripPrefixPath dst (dst ++ rest) = some rest := by
  induction dst with
  | nil => rfl
  | cons d ds ih => simp [stripPrefixPath, ih]

theorem stripPrefixPath_cache_include (g : Path) (v : String) :
    stripPrefixPath (g ++ ["cutlass", v]) (g ++ ["cutlass", v, "include"]) =
      some ["include"] := by
  induction g with
  | nil => simp [stripPrefixPath]
  | cons x xs ih => simp [stripPrefixPath, ih]

/-- Whether the tree obtained by `download_cutlass_with_retry` (when it
succeeded) contains a top-level `include` entry. -/
def fetchedIncludeExists (env : Env) (http : Nat → Nat → Except String DirTree)
    (clone : Except String DirTree) : Bool :=
  match (download_cutlass_with_retry env http clone).2 with
  | .ok tree => tree.hasPath ["include"]
  | .error _ => false

/-- On the download path with a cache miss and a successful copy, the run
publishes `<cache>/include` and the final existence of that path equals
whether the fetched tree has a top-level `include` entry. -/
theorem mainRun_download_ok
    (env : Env) (fs : Path → Bool) (http : Nat → Nat → Except String DirTree)
    (clone : Except String DirTree) (tree : DirTree)
    (hdir : env.cutlass_dir = none)
    (hc : fs (get_cache_dir env ++
      ["cutlass", resolved_cutlass_version env, "include"]) = false)
    (hdl : (download_cutlass_with_retry env http clone).2 = Except.ok tree) :
    (mainRun env fs http clone true).2.1 =
      Outcome.published
        (get_cache_dir env ++ ["cutlass", resolved_cutlass_version env])
        (get_cache_dir env ++ ["cutlass", resolved_cutlass_version env, "include"]) ∧
    (mainRun env fs http clone true).2.2
        (get_cache_dir env ++ ["cutlass", resolved_cutlass_version env, "include"]) =
      tree.hasPath ["include"] := by
  constructor
  · simp [mainRun, hdir, hc, hdl]
  · simp [mainRun, hdir, hc, hdl, fsAfterCopy, stripPrefixPath_cache_include]

/-- C5 counterexample: with no override, an empty filesystem and an HTTP
oracle whose first attempt succeeds with a tree that has no `include/`
entry, the run publishes a cache include path as a success even though that
path does not exist in the final filesystem state. -/
theorem published_include_may_not_exist :
    (mainRun baseEnv fsNone httpEmptyTree cloneFail true).2.1 =
      Outcome.published
        ["/home/user/.cargo", "cutlass-sys-cache", "cutlass", "v4.2.0"]
        ["/home/user/.cargo", "cutlass-sys-cache", "cutlass", "v4.2.0", "include"] ∧
    (mainRun baseEnv fsNone httpEmptyTree cloneFail true).2.2
      ["/home/user/.cargo", "cutlass-sys-cache", "cutlass", "v4.2.0", "include"] =
      false := by
  constructor
  · rfl
  · rfl

/-- C5 amended: every execution path either publishes or panics, and a
published include directory is verified to exist on the override and
cache-hit paths; on the download path, however, the script publishes
`<cache>/<version>/include` after a full copy of the fetched tree without
verifying it, so there the published include path exists in the final
filesystem exactly when the fetched tree has a top-level `include` entry
(a tree without one yields a published but non-existent include path). -/
theorem publish_usable_or_download_unverified
    (env : Env) (fs : Path → Bool) (http : Nat → Nat → Except String DirTree)
    (clone : Except String DirTree) (copyOk : Bool) (root inc : Path)
    (hpub : (mainRun env fs http clone copyOk).2.1 = Outcome.published root inc) :
    (mainRun env fs http clone copyOk).2.2 inc = true ∨
    ((download_cutlass_with_retry env http clone).2.isOk = true ∧
      inc = get_cache_dir env ++ ["cutlass", resolved_cutlass_version env, "include"] ∧
      (mainRun env fs http clone copyOk).2.2 inc =
        fetchedIncludeExists env http clone) := by
  rcases hdir : env.cutlass_dir with _ | d
  · by_cases hc : fs (get_cache_dir env ++
      ["cutlass", resolved_cutlass_version env, "include"]) = true
    · left
      simp [mainRun, hdir, hc] at hpub ⊢
      obtain ⟨h1, h2⟩ := hpub
      subst h2
      exact hc
    · have hc' : fs (get_cache_dir env ++
        ["cutlass", resolved_cutlass_version env, "include"]) = false := by
        simpa using hc
      rcases hdl : (download_cutlass_with_retry env http clone).2 with e | tree
      · cases copyOk <;> simp [mainRun, hdir, hc', hdl] at hpub
      · cases copyOk with
        | false => simp [mainRun, hdir, hc', hdl] at hpub
        | true =>
          right
          have hm := mainRun_download_ok env fs http clone tree hdir hc' hdl
          have h := hm.1.symm.trans hpub
          injection h with h1 h2
          subst h1
          subst h2
          exact ⟨rfl, rfl,
            by rw [hm.2]; simp [fetchedIncludeExists, hdl]⟩
  · by_cases hfs : fs [d, "include"] = true
    · left
      simp [mainRun, hdir, hfs] at hpub ⊢
      obtain ⟨h1, h2⟩ := hpub
      subst h2
      exact hfs
    · have hfs' : fs [d, "include"] = false := by simpa using hfs
      simp [mainRun, hdir, hfs'] at hpub

/-- Closed witness for `publish_usable_or_download_unverified`, applied to
the override path where the include directory exists. -/
theorem publish_usable_or_download_unverified_witness :
    (mainRun envOverride fsAll httpFail cloneFail true).2.2
        ["/opt/cutlass", "include"] = true ∨
    ((download_cutlass_with_retry envOverride httpFail cloneFail).2.isOk = true ∧
      ["/opt/cutlass", "include"] = get_cache_dir envOverride ++
        ["cutlass", resolved_cutlass_version envOverride, "include"] ∧
      (mainRun envOverride fsAll httpFail cloneFail true).2.2
          ["/opt/cutlass", "include"] =
        fetchedIncludeExists envOverride httpFail cloneFail) :=
  publish_usable_or_download_unverified envOverride fsAll httpFail cloneFail
    true ["/opt/cutlass"] ["/opt/cutlass", "include"] rfl

/-! ## C7: what the published outputs contain -/

/-- Whether a cargo line is a consumable published output (plain metadata
or a `rustc-env` line), as opposed to a warning or rerun directive. -/
def CargoLine.isOutput : CargoLine → Bool
  | .meta _ _ => true
  | .rustcEnv _ _ => true
  | .rerun _ _ => false
  | .warning _ => false

/-- Whether an event is a published output line mentioning `s` in its key
or value. -/
def Event.mentionsInOutput (ev : Event) (s : String) : Bool :=
  match ev.cargoLine with
  | some l => l.publishedOutputMentions s
  | none => false

/-- C7 counterexample: a successful run (override path, include present)
publishes its outputs, yet no published metadata or `rustc-env` line
mentions the resolved version string `v4.2.0` — nor even the bare mapped
version `4.2.0` — so the published build-metadata outputs do not include
the resolved library version string. -/
theorem version_absent_from_published_outputs :
    (mainRun envOverride fsAll httpFail cloneFail true).2.1 =
      Outcome.published ["/opt/cutlass"] ["/opt/cutlass", "include"] ∧
    (mainRun envOverride fsAll httpFail cloneFail true).1.all
      (fun ev => !(ev.mentionsInOutput (resolved_cutlass_version envOverride))) =
      true ∧
    (mainRun envOverride fsAll httpFail cloneFail true).1.all
      (fun ev => !(ev.mentionsInOutput
        (get_cutlass_version envOverride.cargo_pkg_version))) = true := by
  refine ⟨rfl, ?_, ?_⟩ <;> decide

theorem retry_attempts_no_cargo (http : Nat → Nat → Except String DirTree)
    (ts : Nat) : ∀ (l : List Nat) (acc : Option String),
    ∀ ev ∈ (retry_attempts http ts l acc).1, ev.cargoLine = none := by
  intro l
  induction l with
  | nil =>
    intro acc ev hev
    simp [retry_attempts] at hev
  | cons a rest ih =>
    intro acc ev hev
    cases hh : http a ts with
    | error e =>
      by_cases ha : 1 < a
      · simp [retry_attempts, hh, ha] at hev
        rcases hev with rfl | rfl | h
        · rfl
        · rfl
        · exact ih _ ev h
      · simp [retry_attempts, hh, ha] at hev
        rcases hev with rfl | h
        · rfl
        · exact ih _ ev h
    | ok t =>
      by_cases ha : 1 < a
      · simp [retry_attempts, hh, ha] at hev
        rcases hev with rfl | rfl <;> rfl
      · simp [retry_attempts, hh, ha] at hev
        subst hev
        rfl

theorem download_no_cargo (env : Env) (http : Nat → Nat → Except String DirTree)
    (clone : Except String DirTree) :
    ∀ ev ∈ (download_cutlass_with_retry env http clone).1,
      ev.cargoLine = none := by
  intro ev hev
  simp only [download_cutlass_with_retry] at hev
  rcases hr : (retry_attempts http (timeout_secs_of env)
      (List.range' 1 (max_retries_of env)) none).2 with le | t
  · rw [hr] at hev
    cases clone with
    | error ce =>
      simp at hev
      rcases hev with h | rfl
      · exact retry_attempts_no_cargo http (timeout_secs_of env) _ _ ev h
      · rfl
    | ok t2 =>
      simp at hev
      rcases hev with h | rfl
      · exact retry_attempts_no_cargo http (timeout_secs_of env) _ _ ev h
      · rfl
  · rw [hr] at hev
    simp at hev
    exact retry_attempts_no_cargo http (timeout_secs_of env) _ _ ev hev

/-- C7 amended: on every successful path the published outputs are exactly
those of `emit_cargo_keys`: the include path under keys `include`,
`include_dir`, `INCLUDE_DIR` and env `CUTLASS_INCLUDE_DIR`, and the root
under key `root` and env `CUTLASS_ROOT`. Every published metadata or
`rustc-env` line in the trace comes from `emit_cargo_keys`, and each of its
lines occurs in the trace; no separate version output exists — the resolved
version string appears only in warnings (and inside path values when the
path itself contains it). -/
theorem published_outputs_are_emit_keys
    (env : Env) (fs : Path → Bool) (http : Nat → Nat → Except String DirTree)
    (clone : Except String DirTree) (copyOk : Bool) (root inc : Path)
    (hpub : (mainRun env fs http clone copyOk).2.1 = Outcome.published root inc) :
    (∀ ev ∈ (mainRun env fs http clone copyOk).1, ∀ l,
      ev.cargoLine = some l → l.isOutput = true → l ∈ emit_cargo_keys root inc) ∧
    (∀ l ∈ emit_cargo_keys root inc,
      Event.cargo l ∈ (mainRun env fs http clone copyOk).1) := by
  rcases hdir : env.cutlass_dir with _ | d
  · by_cases hcb : fs (get_cache_dir env ++
      ["cutlass", resolved_cutlass_version env, "include"]) = true
    · simp [mainRun, hdir, hcb] at hpub
      obtain ⟨h1, h2⟩ := hpub
      subst h1
      subst h2
      constructor
      · intro ev hev l hl hout
        simp [mainRun, hdir, hcb, emit_cargo_keys] at hev
        rcases hev with rfl | rfl | rfl | rfl | rfl | rfl | rfl | rfl | rfl |
          rfl | rfl | rfl | rfl | rfl | rfl | rfl <;>
          first
          | exact Option.noConfusion hl
          | (cases Option.some.inj hl
             revert hout
             simp [CargoLine.isOutput, emit_cargo_keys])
      · intro l hl
        simp [emit_cargo_keys] at hl
        simp [mainRun, hdir, hcb, emit_cargo_keys]
        rcases hl with rfl | rfl | rfl | rfl | rfl | rfl | rfl <;> simp
    · have hc' : fs (get_cache_dir env ++
        ["cutlass", resolved_cutlass_version env, "include"]) = false := by
        simpa using hcb
      rcases hdl : (download_cutlass_with_retry env http clone).2 with e | tree
      · cases copyOk <;> simp [mainRun, hdir, hc', hdl] at hpub
      · cases copyOk with
        | false => simp [mainRun, hdir, hc', hdl] at hpub
        | true =>
          simp [mainRun, hdir, hc', hdl] at hpub
          obtain ⟨h1, h2⟩ := hpub
          subst h1
          subst h2
          constructor
          · intro ev hev l hl hout
            simp [mainRun, hdir, hc', hdl, emit_cargo_keys] at hev
            rcases hev with rfl | rfl | rfl | rfl | rfl | rfl | rfl | hdlm |
              rfl | rfl | rfl | rfl | rfl | rfl | rfl | rfl | rfl <;>
              first
              | exact Option.noConfusion hl
              | (rw [download_no_cargo env http clone ev hdlm] at hl
                 exact Option.noConfusion hl)
              | (cases Option.some.inj hl
                 revert hout
                 simp [CargoLine.isOutput, emit_cargo_keys])
          · intro l hl
            simp [emit_cargo_keys] at hl
            simp [mainRun, hdir, hc', hdl, emit_cargo_keys]
            rcases hl with rfl | rfl | rfl | rfl | rfl | rfl | rfl <;> simp
  · by_cases hfs : fs [d, "include"] = true
    · simp [mainRun, hdir, hfs] at hpub
      obtain ⟨h1, h2⟩ := hpub
      subst h1
      subst h2
      constructor
      · intro ev hev l hl hout
        simp [mainRun, hdir, hfs, emit_cargo_keys] at hev
        rcases hev with rfl | rfl | rfl | rfl | rfl | rfl | rfl | rfl | rfl |
          rfl | rfl | rfl | rfl | rfl <;>
          first
          | exact Option.noConfusion hl
          | (cases Option.some.inj hl
             revert hout
             simp [CargoLine.isOutput, emit_cargo_keys])
      · intro l hl
        simp [emit_cargo_keys] at hl
        simp [mainRun, hdir, hfs, emit_cargo_keys]
        rcases hl with rfl | rfl | rfl | rfl | rfl | rfl | rfl <;> simp
    · have hfs' : fs [d, "include"] = false := by simpa using hfs
      simp [mainRun, hdir, hfs'] at hpub

/-- Closed witness for `published_outputs_are_emit_keys`: on the override
path the `include` metadata line is in the trace. -/
theorem published_outputs_are_emit_keys_witness :
    Event.cargo (CargoLine.meta "include"
        (displayPath ["/opt/cutlass", "include"])) ∈
      (mainRun envOverride fsAll httpFail cloneFail true).1 :=
  (published_outputs_are_emit_keys envOverride fsAll httpFail cloneFail true
      ["/opt/cutlass"] ["/opt/cutlass", "include"] rfl).2
    (CargoLine.meta "include" (displayPath ["/opt/cutlass", "include"]))
    (by simp [emit_cargo_keys])

end CutlassSys
